import Mathlib

/-!
Verification development for the hcat template-cache core.

The Go sources embedded here:
* `store.go` — the dependency cache `Store` (`Save` / `Recall` / `Delete` /
  `Reset`), keyed by the dependency's `String()` identity;
* `tfunc/file.go` — the `file` template helper `fileFunc`, the sandbox check
  `pathInSandbox`, and the `FileQuery` dependency constructor `NewFileQuery`;
* the template engine (`Template`, `NewTemplate`, `Template.ID`,
  `Template.Execute`, `funcMap`) — template construction, the hex-MD5
  identifier, and the per-execution threading of the `used` / `missing`
  dependency sets into helper functions.

Go maps are modelled as duplicate-free association lists, Go `interface{}`
cache values as the inductive `GoValue`, and machine integers (in the MD5
computation) as `Nat` reduced modulo `2 ^ 32`.
-/

namespace Hcat

/-- Opaque Go `interface{}` value stored in the cache: `vnil` is Go's `nil`,
`vstr` a string value, and `other` stands for any non-string non-nil value
(tagged so that distinct such values exist). -/
inductive GoValue where
| vnil : GoValue
| vstr (s : String) : GoValue
| other (tag : Nat) : GoValue
deriving DecidableEq, Repr

/-- A dependency as the `Store` of `store.go` sees it (the Go interface
`IDer`): all the store ever uses is the result of its `String()` method,
recorded in `str`; `payload` stands for the rest of the concrete dependency
value, which the store never inspects. -/
structure IDer where
  str : String
  payload : Nat
deriving DecidableEq, Repr

/-- The dependency cache of `store.go`: `data` maps a dependency id to the
most recent value for it, `receivedData` records which ids have stored data.
Both Go maps are modelled as lists without duplicate keys. -/
structure Store where
  data : List (String × GoValue)
  receivedData : List String
deriving DecidableEq, Repr

/-- `NewStore` of `store.go`: empty values for each of the key structs. -/
def NewStore : Store := ⟨[], []⟩

/-- Key-level write of `store.go`; `Store.Save` applies it at `d.String()`
(and `forceSet` applies it at a raw hash code).  It stores the value under the
key and marks the key received. -/
def Store.saveKey (s : Store) (key : String) (v : GoValue) : Store :=
  { data := (key, v) :: s.data.filter (fun kv => kv.1 != key),
    receivedData :=
      if key ∈ s.receivedData then s.receivedData else key :: s.receivedData }

/-- Key-level read of `store.go`; `Store.Recall` applies it at `d.String()`
and the template engine's `Recaller` interface exposes exactly this function.
If data for the key was never received the result is `(nil, false)`; otherwise
the stored value with `true` (lookup of an absent key in a Go map yields
`nil`). -/
def Store.recallKey (s : Store) (key : String) : GoValue × Bool :=
  if key ∈ s.receivedData then
    (((s.data.find? (fun kv => kv.1 == key)).map Prod.snd).getD GoValue.vnil, true)
  else (GoValue.vnil, false)

/-- Key-level removal of `store.go`; `Store.Delete` applies it at
`d.String()`.  Removes the entry and the received flag. -/
def Store.deleteKey (s : Store) (key : String) : Store :=
  { data := s.data.filter (fun kv => kv.1 != key),
    receivedData := s.receivedData.filter (fun k => k != key) }

/-- `Store.Save` of `store.go`: keyed by `d.String()`. -/
def Store.Save (s : Store) (d : IDer) (v : GoValue) : Store := s.saveKey d.str v

/-- `Store.Recall` of `store.go`: keyed by `d.String()`. -/
def Store.Recall (s : Store) (d : IDer) : GoValue × Bool := s.recallKey d.str

/-- `Store.Delete` of `store.go`: keyed by `d.String()`. -/
def Store.Delete (s : Store) (d : IDer) : Store := s.deleteKey d.str

/-- `Store.Reset` of `store.go`: deletes every key of both maps. -/
def Store.Reset (_ : Store) : Store := ⟨[], []⟩

/-- One mutating operation on the store, for stating trace properties. -/
inductive StoreOp where
| save (d : IDer) (v : GoValue)
| del (d : IDer)
| reset
deriving Repr

/-- Apply one store operation. -/
def applyOp (s : Store) : StoreOp → Store
| .save d v => s.Save d v
| .del d => s.Delete d
| .reset => s.Reset

/-- Run a list of store operations left to right. -/
def runOps (s : Store) (ops : List StoreOp) : Store := ops.foldl applyOp s

/-- One step of the history predicate for an id: a `Save` of the id makes it
live, a `Delete` of the id or a `Reset` kills it, anything else leaves it. -/
def stepSaved (id : String) (b : Bool) : StoreOp → Bool
| .save d _ => if d.str = id then true else b
| .del d => if d.str = id then false else b
| .reset => false

/-- Whether, after the operations of `ops` applied left to right, the id has
been passed to `Save` and not since removed by a `Delete` of the same id or by
a `Reset`. -/
def savedNotRemoved (id : String) (ops : List StoreOp) : Bool :=
  ops.foldl (stepSaved id) false

theorem recallKey_found (s : Store) (key : String) :
    (s.recallKey key).2 = decide (key ∈ s.receivedData) := by
  by_cases h : key ∈ s.receivedData <;> simp [Store.recallKey, h]

theorem applyOp_found (s : Store) (op : StoreOp) (d : IDer) :
    ((applyOp s op).Recall d).2 = stepSaved d.str ((s.Recall d).2) op := by
  cases op with
  | save dd v =>
      simp only [applyOp, stepSaved, Store.Recall, Store.Save, recallKey_found,
        Store.saveKey]
      by_cases h : dd.str = d.str
      · rw [h]
        by_cases hm : d.str ∈ s.receivedData <;> simp [hm]
      · by_cases hm : dd.str ∈ s.receivedData <;>
          simp [hm, h, Ne.symm h, eq_comm]
  | del dd =>
      simp only [applyOp, stepSaved, Store.Recall, Store.Delete, recallKey_found,
        Store.deleteKey]
      by_cases h : dd.str = d.str
      · rw [h]
        simp [List.mem_filter]
      · simp [List.mem_filter, h, Ne.symm h]
  | reset =>
      simp [applyOp, stepSaved, Store.Recall, Store.Reset, recallKey_found]

theorem runOps_found (d : IDer) (ops : List StoreOp) (s : Store) :
    ((runOps s ops).Recall d).2 = ops.foldl (stepSaved d.str) ((s.Recall d).2) := by
  induction ops generalizing s with
  | nil => rfl
  | cons op rest ih =>
      simp only [runOps, List.foldl_cons] at *
      rw [ih (applyOp s op), applyOp_found]

theorem saveKey_recallKey (s : Store) (key : String) (v : GoValue) :
    (s.saveKey key v).recallKey key = (v, true) := by
  have hmem : key ∈
      (if key ∈ s.receivedData then s.receivedData else key :: s.receivedData) := by
    by_cases hm : key ∈ s.receivedData <;> simp [hm]
  simp [Store.recallKey, Store.saveKey, hmem]

/-- C1: `Store.Recall(id)` reports `found = true` exactly when the id was
previously passed to `Save` and has not since been removed by a `Delete` of
that id or by a `Reset`; in particular `Save` then `Delete` recalls
`(nil, false)`, and after `Reset` every id recalls `(nil, false)`. -/
theorem C1_recall_found_iff_saved_not_removed :
    (∀ (d : IDer) (ops : List StoreOp),
      ((runOps NewStore ops).Recall d).2 = savedNotRemoved d.str ops) ∧
    (∀ (s : Store) (d : IDer) (v : GoValue),
      ((s.Save d v).Delete d).Recall d = (GoValue.vnil, false)) ∧
    (∀ (s : Store) (d : IDer),
      (s.Reset.Recall d) = (GoValue.vnil, false)) := by
  refine ⟨fun d ops => ?_, fun s d v => ?_, fun s d => ?_⟩
  · rw [runOps_found, savedNotRemoved]
    have h0 : (NewStore.Recall d).2 = false := by
      simp [NewStore, Store.Recall, Store.recallKey]
    rw [h0]
  · simp [Store.Save, Store.Delete, Store.Recall, Store.deleteKey,
      Store.recallKey, List.mem_filter]
  · simp [Store.Reset, Store.Recall, Store.recallKey]

/-- C3: for every value `v`, `nil` included, `Save(id, v)` followed by
`Recall(id)` returns `(v, true)`; the received flag is set by `Save`
independently of the stored value, so `(nil, true)` after saving `nil` is
distinguishable from the `(nil, false)` of a never-fetched id. -/
theorem C3_save_then_recall_roundtrip :
    (∀ (s : Store) (d : IDer) (v : GoValue), (s.Save d v).Recall d = (v, true)) ∧
    (∀ (d : IDer), NewStore.Recall d = (GoValue.vnil, false)) := by
  refine ⟨fun s d v => ?_, fun d => ?_⟩
  · simpa [Store.Save, Store.Recall] using saveKey_recallKey s d.str v
  · simp [NewStore, Store.Recall, Store.recallKey]

/-- C8: the store is keyed solely by the dependency's string identity: two
dependency values whose `String()` results agree are interchangeable in
`Save`, `Recall` and `Delete`. -/
theorem C8_store_keyed_by_string_identity (s : Store) (d1 d2 : IDer)
    (v : GoValue) (h : d1.str = d2.str) :
    s.Save d1 v = s.Save d2 v ∧ s.Recall d1 = s.Recall d2 ∧
      s.Delete d1 = s.Delete d2 := by
  simp [Store.Save, Store.Recall, Store.Delete, h]

theorem C8_store_keyed_by_string_identity_witness :
    (IDer.mk "file(/a)" 0).str = (IDer.mk "file(/a)" 1).str ∧
    (NewStore.Save ⟨"file(/a)", 0⟩ (GoValue.vstr "x") =
        NewStore.Save ⟨"file(/a)", 1⟩ (GoValue.vstr "x") ∧
      NewStore.Recall ⟨"file(/a)", 0⟩ = NewStore.Recall ⟨"file(/a)", 1⟩ ∧
      NewStore.Delete ⟨"file(/a)", 0⟩ = NewStore.Delete ⟨"file(/a)", 1⟩) :=
  ⟨rfl, C8_store_keyed_by_string_identity NewStore ⟨"file(/a)", 0⟩
    ⟨"file(/a)", 1⟩ (GoValue.vstr "x") rfl⟩

/-- Modelled from the spec: the repository's `DepSet` type is not among the
given sources (only its `Add` call sites are).  Per the spec it is an
insertion-ordered, set-semantics container of dependencies keyed by id with an
idempotent `Add`; we track the ids. -/
structure DepSet where
  ids : List String
deriving DecidableEq, Repr

/-- Modelled from the spec: `NewDepSet` builds an empty dependency set. -/
def NewDepSet : DepSet := ⟨[]⟩

/-- Modelled from the spec: `DepSet.Add` is idempotent and keeps insertion
order, keyed by the dependency id. -/
def DepSet.Add (s : DepSet) (id : String) : DepSet :=
  if id ∈ s.ids then s else ⟨s.ids ++ [id]⟩

theorem mem_Add (s : DepSet) (id a : String) :
    a ∈ (s.Add id).ids ↔ a ∈ s.ids ∨ a = id := by
  by_cases h : id ∈ s.ids
  · simp only [DepSet.Add, if_pos h]
    constructor
    · exact fun ha => Or.inl ha
    · rintro (ha | rfl)
      · exact ha
      · exact h
  · simp [DepSet.Add, if_neg h]

/-- Split a string at every slash (helper for the embedding of Go's
`path/filepath` functions). -/
def splitSlashAux : List Char → List Char → List String
| [], acc => [String.mk acc.reverse]
| c :: cs, acc =>
    if c = '/' then String.mk acc.reverse :: splitSlashAux cs []
    else splitSlashAux cs (c :: acc)

/-- Split a path into its slash-separated pieces. -/
def splitSlash (s : String) : List String := splitSlashAux s.data []

/-- Join path elements with slashes. -/
def joinSlash : List String → String
| [] => ""
| [x] => x
| x :: xs => x ++ "/" ++ joinSlash xs

/-- Character-list prefix test (helper for the embedding of Go's
`strings.HasPrefix`). -/
def listPfx : List Char → List Char → Bool
| [], _ => true
| _ :: _, [] => false
| a :: as, b :: bs => a = b && listPfx as bs

/-- Go's `strings.HasPrefix s p`: does `s` start with `p`. -/
def hasPfx (s p : String) : Bool := listPfx p.data s.data

/-- The element loop of Go's `filepath.Clean` on Unix paths: drop empty and
`.` elements, let `..` cancel a preceding real element, keep leading `..`
elements of relative paths, and drop `..` at the root of rooted paths.
`acc` holds the output elements in reverse. -/
def cleanLoop (rooted : Bool) : List String → List String → List String
| [], acc => acc.reverse
| c :: rest, acc =>
    if c = "" ∨ c = "." then cleanLoop rooted rest acc
    else if c = ".." then
      match acc with
      | [] => if rooted then cleanLoop rooted rest [] else cleanLoop rooted rest [".."]
      | a :: as =>
          if a = ".." then cleanLoop rooted rest (c :: a :: as)
          else cleanLoop rooted rest as
    else cleanLoop rooted rest (c :: acc)

/-- Go's `filepath.Clean` on Unix paths: shortest lexically-equivalent path. -/
def goClean (path : String) : String :=
  if path = "" then "."
  else
    let rooted := hasPfx path "/"
    let comps := cleanLoop rooted (splitSlash path) []
    let out := joinSlash comps
    if rooted then "/" ++ out
    else if out = "" then "." else out

/-- Element list of a cleaned path for `goRel`: a rooted path contributes the
elements after the leading slash, the empty relative path contributes no
elements. -/
def relElems (cleaned : String) : List String :=
  if hasPfx cleaned "/" then
    (if cleaned = "/" then [] else splitSlash (cleaned.drop 1))
  else if cleaned = "" then [] else splitSlash cleaned

/-- Strip the longest common element prefix of two element lists (the element
scan of Go's `filepath.Rel`). -/
def stripCommon : List String → List String → List String × List String
| b :: bs, t :: ts => if b = t then stripCommon bs ts else (b :: bs, t :: ts)
| bs, ts => (bs, ts)

/-- Go's `filepath.Rel(basepath, targpath)` on Unix paths: cleans both, fails
when exactly one is rooted or when reaching the target would have to traverse
an unknown `..` element of the base, and otherwise returns the path from base
to target (`..` steps up for each uncommon base element, then the uncommon
target elements). -/
def goRel (basepath targpath : String) : Except String String :=
  let base := goClean basepath
  let targ := goClean targpath
  if targ = base then .ok "."
  else
    let base := if base = "." then "" else base
    if hasPfx base "/" ≠ hasPfx targ "/" then
      .error ("Rel: can\x27t make " ++ targpath ++ " relative to " ++ basepath)
    else
      match stripCommon (relElems base) (relElems targ) with
      | (brem, trem) =>
        if brem.headD "" = ".." then
          .error ("Rel: can\x27t make " ++ targpath ++ " relative to " ++ basepath)
        else
          .ok (joinSlash (brem.map (fun _ => "..") ++ trem))

/-- Go's `filepath.EvalSymlinks` as it behaves on a filesystem where the whole
path exists and contains no symbolic link: the path is returned cleaned.  The
theorems below that do not fix a filesystem take the resolver as a
parameter. -/
def evalSymlinksClean (path : String) : Except String String := .ok (goClean path)

/-- Go `unicode.IsSpace` on the characters `strings.TrimSpace` meets in
practice (ASCII whitespace plus NEL and NBSP). -/
def goIsSpace (c : Char) : Bool :=
  c = ' ' || c = '\t' || c = '\n' || c = '\x0b' || c = '\x0c' || c = '\r' ||
    c = '\x85' || c = '\xa0'

/-- Go's `strings.TrimSpace`: drop leading and trailing whitespace. -/
def goTrimSpace (s : String) : String :=
  String.mk (((s.data.dropWhile goIsSpace).reverse.dropWhile goIsSpace).reverse)

/-- A local file dependency (`FileQuery` of `tfunc/file.go`); only the path
takes part in identity and in the helper logic (the stop channel and the
cached stat do not). -/
structure FileQuery where
  path : String
deriving DecidableEq, Repr

/-- `FileQuery.String()` of `tfunc/file.go`: the human-friendly id
`file(<path>)`. -/
def FileQuery.id (d : FileQuery) : String := "file(" ++ d.path ++ ")"

/-- `NewFileQuery` of `tfunc/file.go`: trims the argument and rejects it when
nothing remains (Go formats the rejected trimmed string with `%q`, which for
the empty string prints two double quotes). -/
def NewFileQuery (s : String) : Except String FileQuery :=
  let s := goTrimSpace s
  if s = "" then .error ("file: invalid format: " ++ "\x22\x22")
  else .ok ⟨s⟩

/-- `pathInSandbox` of `tfunc/file.go`: with a configured (non-empty) sandbox
root, resolve symlinks in the path (`ev` stands for `filepath.EvalSymlinks`,
whose result depends on the filesystem), make the result relative to the
root, and reject the path when the relative form begins with `..`.  `none`
means the Go function returned `nil`, `some e` that it returned an error with
message `e`. -/
def pathInSandbox (ev : String → Except String String)
    (sandbox path : String) : Option String :=
  if sandbox = "" then none
  else
    match ev path with
    | .error e => some e
    | .ok s =>
        match goRel sandbox s with
        | .error e => some e
        | .ok s =>
            if hasPfx s ".." then
              some ("\x27" ++ path ++ "\x27 is outside of sandbox")
            else none

/-- The closure returned by `fileFunc` of `tfunc/file.go`, applied to the
template argument `s`.  The store `r` and the two dependency sets are
threaded explicitly: the Go closure holds references to them, and its only
access to the store is the read `Recall` of the `Recaller` interface.  The
non-string stored value case is Go's failed `value.(string)` type assertion,
which aborts the execution. -/
def fileFunc (ev : String → Except String String) (r : Store)
    (used missing : DepSet) (sandboxPath : String) (s : String) :
    Except String String × Store × DepSet × DepSet :=
  if s.length = 0 then (.ok "", r, used, missing)
  else
    match pathInSandbox ev sandboxPath s with
    | some e => (.error e, r, used, missing)
    | none =>
        match NewFileQuery s with
        | .error e => (.error e, r, used, missing)
        | .ok d =>
            let used := used.Add d.id
            match r.recallKey d.id with
            | (value, true) =>
                match value with
                | .vnil => (.ok "", r, used, missing)
                | .vstr str => (.ok str, r, used, missing)
                | .other _ =>
                    (.error "interface conversion: interface is not string",
                      r, used, missing)
            | (_, false) => (.ok "", r, used, missing.Add d.id)

/-- State of one template execution: the (read-only) store reference and the
per-execution `used` / `missing` sets and output buffer of
`Template.Execute`. -/
structure ExecState where
  store : Store
  used : DepSet
  missing : DepSet
  output : String
deriving DecidableEq, Repr

/-- Modelled from the spec: `Template.Execute` hands the template text to the
external `text/template` engine, which calls the installed helper closures in
template order and aborts at the first helper error.  The engine itself is
not part of this repository, so an execution is modelled by the trace of
`file` helper calls it performs: each call threads the store and the shared
`used` / `missing` sets and appends its result to the output. -/
def runCalls (ev : String → Except String String) (sandbox : String) :
    ExecState → List String → Except String ExecState
| st, [] => .ok st
| st, s :: rest =>
    match fileFunc ev st.store st.used st.missing sandbox s with
    | (.error e, _, _, _) => .error e
    | (.ok out, r2, u2, m2) =>
        runCalls ev sandbox ⟨r2, u2, m2, st.output ++ out⟩ rest

/-- `Template.Execute` of the template engine over a trace of `file` helper
calls: fresh `used` and `missing` sets are created for the execution
(`var used, missing = NewDepSet(), NewDepSet()`), the helpers run against the
recaller `r`, and the filled-in sets are returned with the output. -/
def Execute (ev : String → Except String String) (sandbox : String)
    (r : Store) (calls : List String) : Except String ExecState :=
  runCalls ev sandbox ⟨r, NewDepSet, NewDepSet, ""⟩ calls

/-- The id of the dependency a `file` helper call touches (adds to `used`),
if the call gets past the emptiness, sandbox and construction guards. -/
def touchedId (ev : String → Except String String) (sandbox : String)
    (s : String) : Option String :=
  if s.length = 0 then none
  else
    match pathInSandbox ev sandbox s with
    | some _ => none
    | none =>
        match NewFileQuery s with
        | .error _ => none
        | .ok d => some d.id

/-- The ids touched by a trace of `file` helper calls. -/
def touchedIds (ev : String → Except String String) (sandbox : String)
    (calls : List String) : List String :=
  calls.filterMap (touchedId ev sandbox)

/-- C4: with a non-empty sandbox root, `pathInSandbox` resolves symlinks,
makes the result relative to the root, and returns the error
`'<path>' is outside of sandbox` exactly when the relative form begins with
`..`; on the spec's example (sandbox `/s`, path `/s/a/../../etc/passwd`, a
symlink-free filesystem) that error is returned, and the `file` helper
returns it as the execution error. -/
theorem C4_sandbox_violation (ev : String → Except String String)
    (sandbox path s rel : String) (h1 : sandbox ≠ "")
    (h2 : ev path = .ok s) (h3 : goRel sandbox s = .ok rel) :
    (pathInSandbox ev sandbox path =
      if hasPfx rel ".." then
        some ("\x27" ++ path ++ "\x27 is outside of sandbox")
      else none) ∧
    pathInSandbox evalSymlinksClean "/s" "/s/a/../../etc/passwd" =
      some "\x27/s/a/../../etc/passwd\x27 is outside of sandbox" ∧
    (∀ (r : Store) (used missing : DepSet),
      fileFunc evalSymlinksClean r used missing "/s" "/s/a/../../etc/passwd" =
        (.error "\x27/s/a/../../etc/passwd\x27 is outside of sandbox",
          r, used, missing)) := by
  refine ⟨?_, by decide, fun r used missing => rfl⟩
  simp [pathInSandbox, h1, h2, h3]

theorem C4_sandbox_violation_witness :
    (("/s" : String) ≠ "" ∧
      evalSymlinksClean "/s/a/../../etc/passwd" = .ok "/etc/passwd" ∧
      goRel "/s" "/etc/passwd" = .ok "../etc/passwd") ∧
    ((pathInSandbox evalSymlinksClean "/s" "/s/a/../../etc/passwd" =
      if hasPfx "../etc/passwd" ".." then
        some ("\x27" ++ "/s/a/../../etc/passwd" ++ "\x27 is outside of sandbox")
      else none) ∧
    pathInSandbox evalSymlinksClean "/s" "/s/a/../../etc/passwd" =
      some "\x27/s/a/../../etc/passwd\x27 is outside of sandbox" ∧
    (∀ (r : Store) (used missing : DepSet),
      fileFunc evalSymlinksClean r used missing "/s" "/s/a/../../etc/passwd" =
        (.error "\x27/s/a/../../etc/passwd\x27 is outside of sandbox",
          r, used, missing))) :=
  ⟨⟨by decide, rfl, rfl⟩,
    C4_sandbox_violation evalSymlinksClean "/s" "/s/a/../../etc/passwd"
      "/etc/passwd" "../etc/passwd" (by decide) rfl rfl⟩

/-- C10: the `file` helper applied to the empty string returns `("", nil)`
immediately: the store and both dependency sets come back unchanged, for any
resolver and any sandbox root, configured or not. -/
theorem C10_file_helper_empty_string (ev : String → Except String String)
    (r : Store) (used missing : DepSet) (sandbox : String) :
    fileFunc ev r used missing sandbox "" = (.ok "", r, used, missing) := rfl

/-- C5 as stated is false: the path `" "` is non-empty and (with no sandbox
configured) accepted by the sandbox check, yet the helper returns the
`NewFileQuery` error and leaves `used` (and `missing`) unchanged instead of
adding the file dependency and returning the empty string without error. -/
theorem C5_counterexample :
    (" " : String).length ≠ 0 ∧
    pathInSandbox evalSymlinksClean "" " " = none ∧
    fileFunc evalSymlinksClean NewStore NewDepSet NewDepSet "" " " =
      (.error ("file: invalid format: " ++ "\x22\x22"),
        NewStore, NewDepSet, NewDepSet) := by
  exact ⟨by decide, rfl, rfl⟩

/-- C5 (amended): for every non-empty path accepted by the sandbox check
whose whitespace-trimmed form is also non-empty (so that the file dependency
can be constructed), the helper adds `file(<trimmed path>)` to `used`; when
the store has received that id it returns the stored string value (the empty
string when the stored value is `nil`) without touching `missing`, and when
the id is absent it adds it to `missing` and returns the empty string with no
error. -/
theorem C5_file_helper_lookup (ev : String → Except String String)
    (r : Store) (used missing : DepSet) (sandbox s : String)
    (h1 : s.length ≠ 0) (h2 : pathInSandbox ev sandbox s = none)
    (h3 : goTrimSpace s ≠ "") :
    (∀ v, r.recallKey ("file(" ++ goTrimSpace s ++ ")") = (GoValue.vstr v, true) →
      fileFunc ev r used missing sandbox s =
        (.ok v, r, used.Add ("file(" ++ goTrimSpace s ++ ")"), missing)) ∧
    (r.recallKey ("file(" ++ goTrimSpace s ++ ")") = (GoValue.vnil, true) →
      fileFunc ev r used missing sandbox s =
        (.ok "", r, used.Add ("file(" ++ goTrimSpace s ++ ")"), missing)) ∧
    ((r.recallKey ("file(" ++ goTrimSpace s ++ ")")).2 = false →
      fileFunc ev r used missing sandbox s =
        (.ok "", r, used.Add ("file(" ++ goTrimSpace s ++ ")"),
          missing.Add ("file(" ++ goTrimSpace s ++ ")"))) := by
  have hq : NewFileQuery s = .ok ⟨goTrimSpace s⟩ := by
    simp [NewFileQuery, h3]
  refine ⟨fun v hv => ?_, fun hv => ?_, fun hv => ?_⟩
  · simp [fileFunc, h1, h2, hq, FileQuery.id, hv]
  · simp [fileFunc, h1, h2, hq, FileQuery.id, hv]
  · rcases hr : r.recallKey ("file(" ++ goTrimSpace s ++ ")") with ⟨value, found⟩
    rw [hr] at hv
    simp only at hv
    subst hv
    simp [fileFunc, h1, h2, hq, FileQuery.id, hr]

theorem C5_file_helper_lookup_witness :
    (("/path/to/file" : String).length ≠ 0 ∧
      pathInSandbox evalSymlinksClean "" "/path/to/file" = none ∧
      goTrimSpace "/path/to/file" ≠ "") ∧
    ((∀ v, (NewStore.saveKey "file(/path/to/file)" (GoValue.vstr "content")).recallKey
          ("file(" ++ goTrimSpace "/path/to/file" ++ ")") = (GoValue.vstr v, true) →
      fileFunc evalSymlinksClean
          (NewStore.saveKey "file(/path/to/file)" (GoValue.vstr "content"))
          NewDepSet NewDepSet "" "/path/to/file" =
        (.ok v, NewStore.saveKey "file(/path/to/file)" (GoValue.vstr "content"),
          NewDepSet.Add ("file(" ++ goTrimSpace "/path/to/file" ++ ")"), NewDepSet)) ∧
    ((NewStore.saveKey "file(/path/to/file)" (GoValue.vstr "content")).recallKey
          ("file(" ++ goTrimSpace "/path/to/file" ++ ")") = (GoValue.vnil, true) →
      fileFunc evalSymlinksClean
          (NewStore.saveKey "file(/path/to/file)" (GoValue.vstr "content"))
          NewDepSet NewDepSet "" "/path/to/file" =
        (.ok "", NewStore.saveKey "file(/path/to/file)" (GoValue.vstr "content"),
          NewDepSet.Add ("file(" ++ goTrimSpace "/path/to/file" ++ ")"), NewDepSet)) ∧
    (((NewStore.saveKey "file(/path/to/file)" (GoValue.vstr "content")).recallKey
          ("file(" ++ goTrimSpace "/path/to/file" ++ ")")).2 = false →
      fileFunc evalSymlinksClean
          (NewStore.saveKey "file(/path/to/file)" (GoValue.vstr "content"))
          NewDepSet NewDepSet "" "/path/to/file" =
        (.ok "", NewStore.saveKey "file(/path/to/file)" (GoValue.vstr "content"),
          NewDepSet.Add ("file(" ++ goTrimSpace "/path/to/file" ++ ")"),
          NewDepSet.Add ("file(" ++ goTrimSpace "/path/to/file" ++ ")")))) :=
  ⟨⟨by decide, rfl, by decide⟩,
    C5_file_helper_lookup evalSymlinksClean
      (NewStore.saveKey "file(/path/to/file)" (GoValue.vstr "content"))
      NewDepSet NewDepSet "" "/path/to/file" (by decide) rfl (by decide)⟩

theorem fileFunc_store (ev : String → Except String String) (r : Store)
    (used missing : DepSet) (sandbox s : String) :
    (fileFunc ev r used missing sandbox s).2.1 = r := by
  unfold fileFunc
  repeat' split
  all_goals rfl

theorem runCalls_mem (ev : String → Except String String) (sandbox : String)
    (calls : List String) :
    ∀ (st res : ExecState), runCalls ev sandbox st calls = .ok res →
      res.store = st.store ∧
      (∀ id, id ∈ res.used.ids ↔
        id ∈ st.used.ids ∨ id ∈ touchedIds ev sandbox calls) ∧
      (∀ id, id ∈ res.missing.ids ↔
        id ∈ st.missing.ids ∨
          (id ∈ touchedIds ev sandbox calls ∧
            (st.store.recallKey id).2 = false)) := by
  induction calls with
  | nil =>
      intro st res h
      simp only [runCalls, Except.ok.injEq] at h
      subst h
      simp [touchedIds]
  | cons s rest ih =>
      intro st res h
      simp only [runCalls] at h
      by_cases hlen : s.length = 0
      · have hf : fileFunc ev st.store st.used st.missing sandbox s =
            (.ok "", st.store, st.used, st.missing) := by
          simp [fileFunc, hlen]
        rw [hf] at h
        dsimp only at h
        have ht : touchedIds ev sandbox (s :: rest) =
            touchedIds ev sandbox rest := by
          simp [touchedIds, List.filterMap_cons, touchedId, hlen]
        rw [ht]
        obtain ⟨h1, h2, h3⟩ := ih _ _ h
        dsimp only at h1 h2 h3
        exact ⟨h1, h2, h3⟩
      · cases hsb : pathInSandbox ev sandbox s with
        | some e =>
            have hf : fileFunc ev st.store st.used st.missing sandbox s =
                (.error e, st.store, st.used, st.missing) := by
              simp [fileFunc, hlen, hsb]
            rw [hf] at h
            simp at h
        | none =>
            have ht : ∀ d, NewFileQuery s = .ok d →
                touchedIds ev sandbox (s :: rest) =
                  d.id :: touchedIds ev sandbox rest := by
              intro d hq
              simp [touchedIds, List.filterMap_cons, touchedId, hlen, hsb, hq]
            cases hq : NewFileQuery s with
            | error e =>
                have hf : fileFunc ev st.store st.used st.missing sandbox s =
                    (.error e, st.store, st.used, st.missing) := by
                  simp [fileFunc, hlen, hsb, hq]
                rw [hf] at h
                simp at h
            | ok d =>
                rw [ht d hq]
                rcases hr : st.store.recallKey d.id with ⟨value, found⟩
                cases found
                · have hf : fileFunc ev st.store st.used st.missing sandbox s =
                      (.ok "", st.store, st.used.Add d.id,
                        st.missing.Add d.id) := by
                    simp [fileFunc, hlen, hsb, hq, hr]
                  rw [hf] at h
                  dsimp only at h
                  obtain ⟨h1, h2, h3⟩ := ih _ _ h
                  dsimp only at h1 h2 h3
                  have hkey : (st.store.recallKey d.id).2 = false := by
                    rw [hr]
                  refine ⟨h1, fun id => ?_, fun id => ?_⟩
                  · rw [h2 id, mem_Add]
                    simp only [List.mem_cons]
                    tauto
                  · rw [h3 id, mem_Add]
                    simp only [List.mem_cons]
                    by_cases hid : id = d.id
                    · subst hid
                      tauto
                    · tauto
                · cases value with
                  | vnil =>
                      have hf : fileFunc ev st.store st.used st.missing sandbox s =
                          (.ok "", st.store, st.used.Add d.id, st.missing) := by
                        simp [fileFunc, hlen, hsb, hq, hr]
                      rw [hf] at h
                      dsimp only at h
                      obtain ⟨h1, h2, h3⟩ := ih _ _ h
                      dsimp only at h1 h2 h3
                      have hkey : ¬ ((st.store.recallKey d.id).2 = false) := by
                        rw [hr]
                        simp
                      refine ⟨h1, fun id => ?_, fun id => ?_⟩
                      · rw [h2 id, mem_Add]
                        simp only [List.mem_cons]
                        tauto
                      · rw [h3 id]
                        simp only [List.mem_cons]
                        by_cases hid : id = d.id
                        · subst hid
                          tauto
                        · tauto
                  | vstr str =>
                      have hf : fileFunc ev st.store st.used st.missing sandbox s =
                          (.ok str, st.store, st.used.Add d.id, st.missing) := by
                        simp [fileFunc, hlen, hsb, hq, hr]
                      rw [hf] at h
                      dsimp only at h
                      obtain ⟨h1, h2, h3⟩ := ih _ _ h
                      dsimp only at h1 h2 h3
                      have hkey : ¬ ((st.store.recallKey d.id).2 = false) := by
                        rw [hr]
                        simp
                      refine ⟨h1, fun id => ?_, fun id => ?_⟩
                      · rw [h2 id, mem_Add]
                        simp only [List.mem_cons]
                        tauto
                      · rw [h3 id]
                        simp only [List.mem_cons]
                        by_cases hid : id = d.id
                        · subst hid
                          tauto
                        · tauto
                  | other tag =>
                      have hf : fileFunc ev st.store st.used st.missing sandbox s =
                          (.error "interface conversion: interface is not string",
                            st.store, st.used.Add d.id, st.missing) := by
                        simp [fileFunc, hlen, hsb, hq, hr]
                      rw [hf] at h
                      simp at h

/-- C2: a template execution that returns without error returns a `used` set
holding exactly the dependency ids touched by the dep-binding helpers during
that execution, and a `missing` set that is a subset of `used` and equals
`used` minus the ids received in the store; both sets are built fresh from
`NewDepSet` for the execution, never carried over from a prior one. -/
theorem C2_execute_used_missing (ev : String → Except String String)
    (sandbox : String) (r : Store) (calls : List String) (res : ExecState)
    (h : Execute ev sandbox r calls = .ok res) :
    Execute ev sandbox r calls =
      runCalls ev sandbox ⟨r, NewDepSet, NewDepSet, ""⟩ calls ∧
    (∀ id, id ∈ res.used.ids ↔ id ∈ touchedIds ev sandbox calls) ∧
    (∀ id, id ∈ res.missing.ids → id ∈ res.used.ids) ∧
    (∀ id, id ∈ res.missing.ids ↔
      id ∈ touchedIds ev sandbox calls ∧ (r.recallKey id).2 = false) := by
  obtain ⟨h1, h2, h3⟩ := runCalls_mem ev sandbox calls _ _ h
  dsimp only at h1 h2 h3
  have hu : ∀ id, id ∈ res.used.ids ↔ id ∈ touchedIds ev sandbox calls := by
    intro id
    rw [h2 id]
    simp [NewDepSet]
  have hm : ∀ id, id ∈ res.missing.ids ↔
      id ∈ touchedIds ev sandbox calls ∧ (r.recallKey id).2 = false := by
    intro id
    rw [h3 id]
    simp [NewDepSet]
  refine ⟨rfl, hu, fun id hmem => ?_, hm⟩
  exact (hu id).mpr ((hm id).mp hmem).1

theorem C2_execute_used_missing_witness :
    Execute evalSymlinksClean "" (NewStore.saveKey "file(/a)" (GoValue.vstr "x"))
      ["/a", "/b", ""] =
      .ok ⟨NewStore.saveKey "file(/a)" (GoValue.vstr "x"),
        ⟨["file(/a)", "file(/b)"]⟩, ⟨["file(/b)"]⟩, "x"⟩ ∧
    (Execute evalSymlinksClean "" (NewStore.saveKey "file(/a)" (GoValue.vstr "x"))
        ["/a", "/b", ""] =
      runCalls evalSymlinksClean ""
        ⟨NewStore.saveKey "file(/a)" (GoValue.vstr "x"), NewDepSet, NewDepSet, ""⟩
        ["/a", "/b", ""] ∧
    (∀ id, id ∈ (DepSet.mk ["file(/a)", "file(/b)"]).ids ↔
      id ∈ touchedIds evalSymlinksClean "" ["/a", "/b", ""]) ∧
    (∀ id, id ∈ (DepSet.mk ["file(/b)"]).ids →
      id ∈ (DepSet.mk ["file(/a)", "file(/b)"]).ids) ∧
    (∀ id, id ∈ (DepSet.mk ["file(/b)"]).ids ↔
      id ∈ touchedIds evalSymlinksClean "" ["/a", "/b", ""] ∧
        ((NewStore.saveKey "file(/a)" (GoValue.vstr "x")).recallKey id).2 = false)) :=
  ⟨rfl, C2_execute_used_missing evalSymlinksClean ""
    (NewStore.saveKey "file(/a)" (GoValue.vstr "x")) ["/a", "/b", ""]
    ⟨NewStore.saveKey "file(/a)" (GoValue.vstr "x"),
      ⟨["file(/a)", "file(/b)"]⟩, ⟨["file(/b)"]⟩, "x"⟩ rfl⟩

/-- C9: `Template.Execute` never mutates the store it is given: execution
reaches the store only through the read-only `Recall` operation of the
`Recaller` interface, every individual `file` helper call hands the store
back untouched, and an execution that completes leaves the store exactly as
it was. -/
theorem C9_execute_never_mutates_store (ev : String → Except String String)
    (sandbox : String) (r : Store) (calls : List String) (res : ExecState)
    (h : Execute ev sandbox r calls = .ok res) :
    res.store = r ∧
    (∀ (used missing : DepSet) (s : String),
      (fileFunc ev r used missing sandbox s).2.1 = r) := by
  refine ⟨?_, fun used missing s => fileFunc_store ev r used missing sandbox s⟩
  obtain ⟨h1, -, -⟩ := runCalls_mem ev sandbox calls _ _ h
  exact h1

theorem C9_execute_never_mutates_store_witness :
    Execute evalSymlinksClean "" NewStore ["/a"] =
      .ok ⟨NewStore, ⟨["file(/a)"]⟩, ⟨["file(/a)"]⟩, ""⟩ ∧
    ((⟨NewStore, ⟨["file(/a)"]⟩, ⟨["file(/a)"]⟩, ""⟩ : ExecState).store = NewStore ∧
    (∀ (used missing : DepSet) (s : String),
      (fileFunc evalSymlinksClean NewStore used missing "" s).2.1 = NewStore)) :=
  ⟨rfl, C9_execute_never_mutates_store evalSymlinksClean "" NewStore ["/a"]
    ⟨NewStore, ⟨["file(/a)"]⟩, ⟨["file(/a)"]⟩, ""⟩ rfl⟩

/-- UTF-8 encoding of one character; Go strings are UTF-8 byte sequences and
`NewTemplate` hashes the raw bytes of the contents. -/
def utf8Bytes (c : Char) : List Nat :=
  let n := c.toNat
  if n < 128 then [n]
  else if n < 2048 then
    [192 ||| (n >>> 6), 128 ||| (n &&& 63)]
  else if n < 65536 then
    [224 ||| (n >>> 12), 128 ||| ((n >>> 6) &&& 63), 128 ||| (n &&& 63)]
  else
    [240 ||| (n >>> 18), 128 ||| ((n >>> 12) &&& 63),
      128 ||| ((n >>> 6) &&& 63), 128 ||| (n &&& 63)]

/-- UTF-8 byte sequence of a string. -/
def strBytes (s : String) : List Nat := s.data.flatMap utf8Bytes

/-- All ones in 32 bits. -/
def mask32 : Nat := 4294967295

/-- Rotate a 32-bit word left by `n` bits. -/
def rotl32 (x n : Nat) : Nat := ((x <<< n) ||| (x >>> (32 - n))) &&& mask32

/-- The 64 MD5 sine-derived constants of RFC 1321. -/
def md5K : List Nat :=
  [0xd76aa478, 0xe8c7b756, 0x242070db, 0xc1bdceee,
   0xf57c0faf, 0x4787c62a, 0xa8304613, 0xfd469501,
   0x698098d8, 0x8b44f7af, 0xffff5bb1, 0x895cd7be,
   0x6b901122, 0xfd987193, 0xa679438e, 0x49b40821,
   0xf61e2562, 0xc040b340, 0x265e5a51, 0xe9b6c7aa,
   0xd62f105d, 0x02441453, 0xd8a1e681, 0xe7d3fbc8,
   0x21e1cde6, 0xc33707d6, 0xf4d50d87, 0x455a14ed,
   0xa9e3e905, 0xfcefa3f8, 0x676f02d9, 0x8d2a4c8a,
   0xfffa3942, 0x8771f681, 0x6d9d6122, 0xfde5380c,
   0xa4beea44, 0x4bdecfa9, 0xf6bb4b60, 0xbebfbc70,
   0x289b7ec6, 0xeaa127fa, 0xd4ef3085, 0x04881d05,
   0xd9d4d039, 0xe6db99e5, 0x1fa27cf8, 0xc4ac5665,
   0xf4292244, 0x432aff97, 0xab9423a7, 0xfc93a039,
   0x655b59c3, 0x8f0ccc92, 0xffeff47d, 0x85845dd1,
   0x6fa87e4f, 0xfe2ce6e0, 0xa3014314, 0x4e0811a1,
   0xf7537e82, 0xbd3af235, 0x2ad7d2bb, 0xeb86d391]

/-- The per-round left-rotation amounts of RFC 1321. -/
def md5S : List Nat :=
  [7, 12, 17, 22, 7, 12, 17, 22, 7, 12, 17, 22, 7, 12, 17, 22,
   5, 9, 14, 20, 5, 9, 14, 20, 5, 9, 14, 20, 5, 9, 14, 20,
   4, 11, 16, 23, 4, 11, 16, 23, 4, 11, 16, 23, 4, 11, 16, 23,
   6, 10, 15, 21, 6, 10, 15, 21, 6, 10, 15, 21, 6, 10, 15, 21]

/-- Group bytes into 32-bit little-endian words. -/
def leWords : List Nat → List Nat
| b0 :: b1 :: b2 :: b3 :: rest =>
    (b0 + 256 * b1 + 65536 * b2 + 16777216 * b3) :: leWords rest
| _ => []

/-- MD5 padding: a `0x80` byte, zeros up to 56 mod 64, then the bit length as
eight little-endian bytes (modulo `2 ^ 64`, enforced by taking 8 bytes). -/
def md5Pad (msg : List Nat) : List Nat :=
  let len := msg.length
  let z := (64 + 56 - ((len + 1) % 64)) % 64
  msg ++ [128] ++ List.replicate z 0 ++
    (List.range 8).map (fun i => ((len * 8) >>> (8 * i)) &&& 255)

/-- The four 32-bit registers of the MD5 state. -/
structure MD5State where
  a : Nat
  b : Nat
  c : Nat
  d : Nat
deriving DecidableEq, Repr

/-- One of the 64 MD5 operations on a block whose words are `ws`. -/
def md5Round (ws : List Nat) (st : MD5State) (i : Nat) : MD5State :=
  let f :=
    if i < 16 then (st.b &&& st.c) ||| ((mask32 ^^^ st.b) &&& st.d)
    else if i < 32 then (st.d &&& st.b) ||| ((mask32 ^^^ st.d) &&& st.c)
    else if i < 48 then st.b ^^^ st.c ^^^ st.d
    else st.c ^^^ (st.b ||| (mask32 ^^^ st.d))
  let g :=
    if i < 16 then i
    else if i < 32 then (5 * i + 1) % 16
    else if i < 48 then (3 * i + 5) % 16
    else (7 * i) % 16
  let f := (f + st.a + md5K.getD i 0 + ws.getD g 0) % 4294967296
  ⟨st.d, (st.b + rotl32 f (md5S.getD i 0)) % 4294967296, st.b, st.c⟩

/-- Absorb one 64-byte block into the MD5 state. -/
def md5Block (st : MD5State) (block : List Nat) : MD5State :=
  let ws := leWords block
  let r := (List.range 64).foldl (md5Round ws) st
  ⟨(st.a + r.a) % 4294967296, (st.b + r.b) % 4294967296,
   (st.c + r.c) % 4294967296, (st.d + r.d) % 4294967296⟩

/-- Absorb `n` 64-byte blocks. -/
def md5Blocks : Nat → MD5State → List Nat → MD5State
| 0, st, _ => st
| n + 1, st, bytes => md5Blocks n (md5Block st (bytes.take 64)) (bytes.drop 64)

/-- Little-endian bytes of a 32-bit word. -/
def leBytes4 (w : Nat) : List Nat :=
  [w &&& 255, (w >>> 8) &&& 255, (w >>> 16) &&& 255, (w >>> 24) &&& 255]

/-- The 16-byte MD5 digest of a byte sequence (RFC 1321, as computed by Go's
`crypto/md5.Sum`). -/
def md5Bytes (msg : List Nat) : List Nat :=
  let padded := md5Pad msg
  let st := md5Blocks (padded.length / 64)
    ⟨1732584193, 4023233417, 2562383102, 271733878⟩ padded
  leBytes4 st.a ++ leBytes4 st.b ++ leBytes4 st.c ++ leBytes4 st.d

/-- Lowercase hexadecimal digit. -/
def hexDigit (n : Nat) : Char :=
  if n < 10 then Char.ofNat (48 + n) else Char.ofNat (87 + n)

/-- Lowercase hexadecimal encoding of a byte list (Go's
`hex.EncodeToString`). -/
def hexEncode (bytes : List Nat) : String :=
  String.mk (bytes.flatMap (fun b => [hexDigit (b / 16), hexDigit (b % 16)]))

/-- The hex-encoded MD5 of the UTF-8 bytes of a string: what `NewTemplate`
computes from the template contents. -/
def md5Hex (s : String) : String := hexEncode (md5Bytes (strBytes s))

set_option maxRecDepth 20000 in
theorem md5Hex_testvector : md5Hex "abc" = "900150983cd24fb0d6963f7d28e17f72" := by
  decide

/-- `TemplateInput` of the template engine.  The helper-map merge and the
renderer are opaque interface values whose contents the constructor only
copies; they are modelled as tags (the merge map's behaviour is modelled
separately for `funcMap`). -/
structure TemplateInput where
  Contents : String
  ErrMissingKey : Bool
  LeftDelim : String
  RightDelim : String
  FuncMapMerge : Nat
  SandboxPath : String
  Renderer : Nat
deriving DecidableEq, Repr

/-- `Template` of the template engine: immutable after construction, holding
the source text, delimiters, the missing-key flag, the merge map, the sandbox
root, the renderer, and the hex MD5 of the source computed at
construction. -/
structure Template where
  contents : String
  leftDelim : String
  rightDelim : String
  hexMD5 : String
  errMissingKey : Bool
  funcMapMerge : Nat
  sandboxPath : String
  renderer : Nat
deriving DecidableEq, Repr

/-- `NewTemplate` of the template engine: copies the input fields and computes
the MD5 of the contents, encoded as hex. -/
def NewTemplate (i : TemplateInput) : Template :=
  { contents := i.Contents
    leftDelim := i.LeftDelim
    rightDelim := i.RightDelim
    errMissingKey := i.ErrMissingKey
    sandboxPath := i.SandboxPath
    funcMapMerge := i.FuncMapMerge
    renderer := i.Renderer
    hexMD5 := md5Hex i.Contents }

/-- `Template.ID()`: returns the identifier stored at construction. -/
def Template.ID (t : Template) : String := t.hexMD5

/-- C6: `Template.ID()` is the hex-encoded MD5 of the template's source
bytes, computed once by `NewTemplate`; it depends only on the `Contents`
field, so inputs with identical source text yield identical ids whatever
their delimiters, sandbox path or other fields. -/
theorem C6_template_id_is_md5_of_contents (i1 i2 : TemplateInput)
    (h : i1.Contents = i2.Contents) :
    (NewTemplate i1).ID = md5Hex i1.Contents ∧
    (NewTemplate i1).ID = (NewTemplate i2).ID := by
  refine ⟨rfl, ?_⟩
  simp [NewTemplate, Template.ID, h]

theorem C6_template_id_is_md5_of_contents_witness :
    (TemplateInput.mk "hello" false "" "" 0 "" 0).Contents =
      (TemplateInput.mk "hello" true "[[" "]]" 7 "/s" 3).Contents ∧
    ((NewTemplate (TemplateInput.mk "hello" false "" "" 0 "" 0)).ID =
      md5Hex (TemplateInput.mk "hello" false "" "" 0 "" 0).Contents ∧
    (NewTemplate (TemplateInput.mk "hello" false "" "" 0 "" 0)).ID =
      (NewTemplate (TemplateInput.mk "hello" true "[[" "]]" 7 "/s" 3)).ID) :=
  ⟨rfl, C6_template_id_is_md5_of_contents
    (TemplateInput.mk "hello" false "" "" 0 "" 0)
    (TemplateInput.mk "hello" true "[[" "]]" 7 "/s" 3) rfl⟩

/-- One entry of the caller-supplied helper map (`FuncMapMerge`).  The Go
engine recognises dep-binding entries by a runtime type switch on the Go
signature taking a recaller and the two dependency-set pointers and
returning an untyped helper; in this embedding the switch becomes a tagged
variant over an arbitrary installed-helper type `α`, as the spec's design
notes direct. -/
inductive FuncMapEntry (α : Type) where
| depBinding (f : (String → GoValue × Bool) → DepSet → DepSet → α)
| plain (v : α)

/-- The type-switch body of `funcMap`: a dep-binding entry is invoked with
the current recaller and the execution's `used` and `missing` sets and its
result is installed; any other entry is installed as it is. -/
def installEntry {α : Type} (store : String → GoValue × Bool)
    (used missing : DepSet) : FuncMapEntry α → α
| .depBinding f => f store used missing
| .plain v => v

/-- The merge loop of `funcMap` (`for k, v := range i.funcMapMerge`): each
entry of the merge map is assigned into the function map `r`, a dep-binding
entry after invocation, any other unchanged. -/
def applyFuncMapMerge {α : Type} (store : String → GoValue × Bool)
    (used missing : DepSet) :
    List (String × FuncMapEntry α) → (String → Option α) → String → Option α
| [], r => r
| (k, v) :: rest, r =>
    applyFuncMapMerge store used missing rest
      (fun x => if x = k then some (installEntry store used missing v) else r x)

theorem applyFuncMapMerge_not_mem {α : Type} (store : String → GoValue × Bool)
    (used missing : DepSet) (merge : List (String × FuncMapEntry α)) :
    ∀ (base : String → Option α) (x : String), x ∉ merge.map Prod.fst →
      applyFuncMapMerge store used missing merge base x = base x := by
  induction merge with
  | nil => intro base x _; rfl
  | cons kv rest ih =>
      intro base x hx
      rcases kv with ⟨k, v⟩
      simp only [List.map_cons, List.mem_cons] at hx
      push_neg at hx
      rw [applyFuncMapMerge, ih _ x hx.2]
      simp [hx.1]

theorem applyFuncMapMerge_mem {α : Type} (store : String → GoValue × Bool)
    (used missing : DepSet) (merge : List (String × FuncMapEntry α)) :
    ∀ (base : String → Option α) (k : String) (e : FuncMapEntry α),
      (merge.map Prod.fst).Nodup → (k, e) ∈ merge →
      applyFuncMapMerge store used missing merge base k =
        some (installEntry store used missing e) := by
  induction merge with
  | nil => intro base k e _ hk; cases hk
  | cons kv rest ih =>
      intro base k e hnd hk
      rcases kv with ⟨k0, v0⟩
      simp only [List.map_cons, List.nodup_cons] at hnd
      rcases List.mem_cons.mp hk with heq | hmem
      · cases heq
        rw [applyFuncMapMerge,
          applyFuncMapMerge_not_mem store used missing rest _ k hnd.1]
        simp
      · rw [applyFuncMapMerge]
        exact ih _ k e hnd.2 hmem

/-- C7: every merge-map entry matching the dep-binding signature is invoked
with the current recaller and the execution's `used` and `missing` sets and
the value it returns is installed as the template-callable helper under its
key; every other entry is installed unchanged, and keys outside the merge
map keep their default helpers. -/
theorem C7_funcmap_merge_installs (α : Type) (store : String → GoValue × Bool)
    (used missing : DepSet) (merge : List (String × FuncMapEntry α))
    (base : String → Option α) (k : String) (e : FuncMapEntry α)
    (hnd : (merge.map Prod.fst).Nodup) (hk : (k, e) ∈ merge) :
    applyFuncMapMerge store used missing merge base k =
      some (installEntry store used missing e) ∧
    (∀ f : (String → GoValue × Bool) → DepSet → DepSet → α,
      installEntry store used missing (FuncMapEntry.depBinding f) =
        f store used missing) ∧
    (∀ v : α, installEntry store used missing (FuncMapEntry.plain v) = v) ∧
    (∀ x, x ∉ merge.map Prod.fst →
      applyFuncMapMerge store used missing merge base x = base x) :=
  ⟨applyFuncMapMerge_mem store used missing merge base k e hnd hk,
    fun _ => rfl, fun _ => rfl,
    fun x hx => applyFuncMapMerge_not_mem store used missing merge base x hx⟩

/-- Sample merge map used to instantiate the funcMap merge theorem: one
dep-binding entry and one plain entry. -/
def mergeSample : List (String × FuncMapEntry Nat) :=
  [("h", FuncMapEntry.depBinding (fun _ u _ => u.ids.length)),
   ("p", FuncMapEntry.plain 5)]

/-- Sample recaller used to instantiate the funcMap merge theorem. -/
def storeSample : String → GoValue × Bool := fun _ => (GoValue.vnil, false)

theorem C7_funcmap_merge_installs_witness :
    ((mergeSample.map Prod.fst).Nodup ∧
      ("h", FuncMapEntry.depBinding (fun _ u _ => u.ids.length)) ∈ mergeSample) ∧
    (applyFuncMapMerge storeSample ⟨["a"]⟩ NewDepSet mergeSample
        (fun _ => none) "h" =
      some (installEntry storeSample ⟨["a"]⟩ NewDepSet
        (FuncMapEntry.depBinding (fun _ u _ => u.ids.length))) ∧
    (∀ f : (String → GoValue × Bool) → DepSet → DepSet → Nat,
      installEntry storeSample ⟨["a"]⟩ NewDepSet (FuncMapEntry.depBinding f) =
        f storeSample ⟨["a"]⟩ NewDepSet) ∧
    (∀ v : Nat,
      installEntry storeSample ⟨["a"]⟩ NewDepSet (FuncMapEntry.plain v) = v) ∧
    (∀ x, x ∉ mergeSample.map Prod.fst →
      applyFuncMapMerge storeSample ⟨["a"]⟩ NewDepSet mergeSample
        (fun _ => none) x = (fun _ => (none : Option Nat)) x)) :=
  ⟨⟨by decide, List.mem_cons_self _ _⟩,
    C7_funcmap_merge_installs Nat storeSample ⟨["a"]⟩ NewDepSet mergeSample
      (fun _ => none) "h"
      (FuncMapEntry.depBinding (fun _ u _ => u.ids.length))
      (by decide) (List.mem_cons_self _ _)⟩

end Hcat
